import Mathlib

/-! custom-error-pages: the error-page handler

A shallow embedding of `images/custom-error-pages/main.go`: the handler
`errorHandler` that resolves a format and a status code from the request
headers `X-Format` and `X-Code`, looks for `<root>/<code><ext>` and then for
`<root>/<d>xx<ext>`, and writes the response.

The handler is one Go closure.  Its steps are kept here in source order; the
values it binds on the way (`format`, `ext`, `code`, the two file names) are
given names of their own so that statements can speak about them.

What the handler calls but does not define is modelled as follows.

* `strconv.Atoi`, `strconv.Itoa`: the decimal conversions for a 64-bit `int`.
* `mime.ExtensionsByType`: a parameter `reg`, the state of the media-type
  registry, returning an error or a list of extensions.
* `os.Open`: a parameter `fs`, giving the bytes of every file that opens.
* `http.ResponseWriter`: the writer of the `net/http` server, the only one
  `main` hands the handler.  `WriteHeader` stops with a fault on a code below
  100 or above 999, sends a 1xx code other than 101 as an interim response and
  commits any other code; the first committed status stands.  `Write` sends no
  body for a status 1xx, 204 or 304, nor for a `HEAD` request.  A status 304
  is sent without `Content-Type`.
* `requestCount`, `requestDuration`: declared in another file of the package.
* `log.Printf` has no effect on the response and is left out.
-/

namespace CustomErrorPages

/-! ## Strings and decimal conversion -/

/-- Contents of a file, and of a response body. -/
abbrev Bytes := List Nat

/-- The byte values of an ASCII/UTF-8 character string, one per character
for the ASCII texts written by `http.Error`. -/
def stringBytes (s : String) : Bytes := s.data.map Char.toNat

/-- Decimal digit character of `d % 10`. -/
def digitChar (d : Nat) : Char :=
  match d % 10 with
  | 0 => '0' | 1 => '1' | 2 => '2' | 3 => '3' | 4 => '4'
  | 5 => '5' | 6 => '6' | 7 => '7' | 8 => '8' | _ => '9'

/-- The digit loop of `strconv.formatBits` for base 10: digits are produced
from the least significant one and written in front of what is there. -/
def formatDigits : Nat → Nat → List Char → List Char
  | 0, _, acc => acc
  | fuel + 1, u, acc =>
    let acc1 := digitChar u :: acc
    if u / 10 = 0 then acc1 else formatDigits fuel (u / 10) acc1

/-- Decimal text of a natural number. -/
def formatUint (u : Nat) : List Char := formatDigits (u + 1) u []

/-- `strconv.Itoa`: decimal text of an integer, with `-` in front of a
negative one. -/
def Itoa (i : Int) : String :=
  if i < 0 then ⟨'-' :: formatUint i.natAbs⟩ else ⟨formatUint i.natAbs⟩

/-- Value of a decimal digit character (`ch -= '0'; if ch > 9` fails). -/
def digitValue (c : Char) : Option Nat :=
  if 48 ≤ c.toNat ∧ c.toNat ≤ 57 then some (c.toNat - 48) else none

/-- The digit loop of `strconv.ParseUint` for base 10. -/
def parseDigits : List Char → Nat → Option Nat
  | [], n => some n
  | c :: cs, n =>
    match digitValue c with
    | none => none
    | some d => parseDigits cs (n * 10 + d)

/-- Width of the Go type `int` on the platform the image is built for. -/
def intSize : Nat := 64

/-- `strconv.Atoi`: an optional sign, then one or more decimal digits, whose
value fits `int`; `none` is the error result (syntax or range). -/
def Atoi (s : String) : Option Int :=
  match s.data with
  | [] => none
  | c :: cs =>
    let digits := if c = '-' ∨ c = '+' then cs else c :: cs
    if digits = [] then none
    else
      match parseDigits digits 0 with
      | none => none
      | some un =>
        if c = '-' then
          if un > 2 ^ (intSize - 1) then none else some (-(un : Int))
        else
          if un ≥ 2 ^ (intSize - 1) then none else some (un : Int)

/-- `strings.HasPrefix`. -/
def HasPrefix (s p : String) : Bool := p.data.isPrefixOf s.data

/-! ## Requests, responses, files and metrics -/

/-- Name of the header used to extract the format. -/
def FormatHeader : String := "X-Format"

/-- Name of the header used as source of the HTTP status code to return. -/
def CodeHeader : String := "X-Code"

/-- Name of the header that defines the format of the reply. -/
def ContentType : String := "Content-Type"

/-- An `http.Header`, with one value kept per (canonical) key. -/
abbrev Header := List (String × String)

/-- `Header.Get`: the value stored under the key, `""` when there is none. -/
def Header.Get (h : Header) (key : String) : String :=
  match h.lookup key with
  | some v => v
  | none => ""

/-- `Header.Set`: replaces whatever is stored under the key. -/
def Header.Set (h : Header) (key value : String) : Header :=
  (key, value) :: h.filter (fun kv => !(kv.1 == key))

/-- `Header.Del`: removes whatever is stored under the key. -/
def Header.Del (h : Header) (key : String) : Header :=
  h.filter (fun kv => !(kv.1 == key))

/-- The parts of `http.Request` the handler and its writer read. -/
structure Request where
  Method : String
  Header : Header
  ProtoMajor : Int
  ProtoMinor : Int

/-- A run-time fault that ends the handler: the panic of `WriteHeader` on an
invalid status code, or an index out of range. -/
inductive Fault where
  | invalidWriteHeaderCode (code : Int)
  | indexOutOfRange
  deriving DecidableEq

/-- `bodyAllowedForStatus` of `net/http`: no body goes with a status 1xx, 204
or 304. -/
def bodyAllowedForStatus (status : Int) : Bool :=
  if 100 ≤ status ∧ status ≤ 199 then false
  else if status = 204 then false
  else if status = 304 then false
  else true

/-- The response writer of the `net/http` server, as what the client is sent.
`method` is the method of the request it answers; `header` is the map returned
by `Header()`; `interim` lists the 1xx responses sent; `status` is the
committed status, `none` as long as no header is written; `sentHeader` is the
header map sent with the committed status; `body` is the body sent. -/
structure ResponseWriter where
  method : String
  header : Header
  interim : List Int
  status : Option Int
  sentHeader : Header
  body : Bytes

/-- The writer a handler is given for a request with the given method: nothing
set, nothing committed. -/
def ResponseWriter.fresh (method : String) : ResponseWriter :=
  { method := method, header := [], interim := [], status := none, sentHeader := [], body := [] }

/-- `w.Header().Set(key, value)`. -/
def ResponseWriter.SetHeader (w : ResponseWriter) (key value : String) : ResponseWriter :=
  { w with header := w.header.Set key value }

/-- The status is committed with a copy of the header map; a 304 goes out
without `Content-Type`. -/
def ResponseWriter.commit (w : ResponseWriter) (code : Int) : ResponseWriter :=
  { w with
    status := some code,
    sentHeader := if code = 304 then w.header.Del ContentType else w.header }

/-- `w.WriteHeader(code)`: superfluous once a status is committed; otherwise a
code below 100 or above 999 is a fault (`checkWriteHeaderCode`), a 1xx code
other than 101 is sent as an interim response and nothing is committed, and
any other code is committed. -/
def ResponseWriter.WriteHeader (w : ResponseWriter) (code : Int) :
    Except Fault ResponseWriter :=
  match w.status with
  | some _ => .ok w
  | none =>
    if code < 100 ∨ code > 999 then .error (Fault.invalidWriteHeaderCode code)
    else if 100 ≤ code ∧ code ≤ 199 ∧ code ≠ 101 then
      .ok { w with interim := w.interim ++ [code] }
    else .ok (w.commit code)

/-- `w.Write(b)`: commits status 200 when nothing is committed yet; the bytes
are sent unless the committed status allows no body or the request is a
`HEAD`. -/
def ResponseWriter.Write (w : ResponseWriter) (b : Bytes) : ResponseWriter :=
  let w1 := match w.status with
    | some _ => w
    | none => w.commit 200
  match w1.status with
  | none => w1
  | some s =>
    if bodyAllowedForStatus s = true ∧ w1.method ≠ "HEAD" then
      { w1 with body := w1.body ++ b }
    else w1

/-- `http.Error(w, error, code)`: sets two headers, writes the status, prints
the text and a newline. -/
def Error (w : ResponseWriter) (error : String) (code : Int) : Except Fault ResponseWriter :=
  let w1 := w.SetHeader ContentType "text/plain; charset=utf-8"
  let w2 := w1.SetHeader "X-Content-Type-Options" "nosniff"
  match w2.WriteHeader code with
  | .error e => .error e
  | .ok w3 => .ok (w3.Write (stringBytes (error ++ "\n")))

/-- `http.NotFound(w, r)`. -/
def NotFound (w : ResponseWriter) : Except Fault ResponseWriter :=
  Error w "404 page not found" 404

/-- Modelled from the spec: the collectors `requestCount` and
`requestDuration` are declared in another file of the package (not under
`src/`).  Per the spec they are keyed by the protocol version label;
`Inc` adds one to the counter of a label and `Observe` records one
observation for a label (the observed duration itself, a floating-point
number of seconds, is not kept). -/
structure Metrics where
  requestCount : String → Nat
  requestDuration : String → Nat

/-- `requestCount.WithLabelValues(proto).Inc()`. -/
def Metrics.Inc (m : Metrics) (proto : String) : Metrics :=
  { m with requestCount := fun l => if l = proto then m.requestCount l + 1 else m.requestCount l }

/-- `requestDuration.WithLabelValues(proto).Observe(duration)`. -/
def Metrics.Observe (m : Metrics) (proto : String) : Metrics :=
  { m with requestDuration := fun l => if l = proto then m.requestDuration l + 1 else m.requestDuration l }

/-- Metrics at process start. -/
def Metrics.zero : Metrics :=
  { requestCount := fun _ => 0, requestDuration := fun _ => 0 }

/-- What one run of the handler leaves behind: the response, the metrics and
the names passed to `os.Open`, in order. -/
structure Result where
  w : ResponseWriter
  metrics : Metrics
  opened : List String

/-! ## The handler -/

/-- Lines 70-74: the format, `text/html` when the header gives none. -/
def resolveFormat (r : Request) : String :=
  let format := r.Header.Get FormatHeader
  if format = "" then "text/html" else format

/-- Lines 68 and 76-83: the extension before the dot is put in front: the
first one the registry has for the format, `html` when the lookup fails or
finds nothing. -/
def lookupExt (reg : String → Except String (List String)) (format : String) : String :=
  let ext := "html"
  match reg format with
  | .error _ => ext
  | .ok cext =>
    match cext with
    | [] => ext
    | e :: _ => e

/-- Lines 86-91: the code, 404 when `Atoi` fails. -/
def resolveCode (r : Request) : Int :=
  let errCode := r.Header.Get CodeHeader
  match Atoi errCode with
  | none => 404
  | some code => code

/-- Lines 94-96: a dot is put in front of an extension that has none. -/
def dotExt (ext : String) : String :=
  if !HasPrefix ext "." then "." ++ ext else ext

/-- The extension used in both file names. -/
def resolveExt (reg : String → Except String (List String)) (r : Request) : String :=
  dotExt (lookupExt reg (resolveFormat r))

/-- Line 97: `fmt.Sprintf("%v/%v%v", path, code, ext)`. -/
def exactFile (path : String) (code : Int) (ext : String) : String :=
  path ++ "/" ++ Itoa code ++ ext

/-- Line 102: `fmt.Sprintf("%v/%cxx%v", path, scode[0], ext)`, given the
character `scode[0]`. -/
def classFile (path : String) (c : Char) (ext : String) : String :=
  path ++ "/" ++ String.singleton c ++ "xx" ++ ext

/-- `scode[0]`: the first character, `none` where Go stops with an index out
of range. -/
def firstChar (s : String) : Option Char :=
  match s.data with
  | [] => none
  | c :: _ => some c

/-- The closure returned by `errorHandler(path)`, run on a request.  An error
result is a run-time fault: the panic of `w.WriteHeader(code)` at line 92
(also reachable, by type, inside `http.NotFound`), or the index expression
`scode[0]` out of range.  `io.Copy(w, f)` is one `Write` of the bytes of the
file. -/
def errorHandler (reg : String → Except String (List String)) (fs : String → Option Bytes)
    (path : String) (r : Request) (w : ResponseWriter) (m : Metrics) : Except Fault Result :=
  let format := resolveFormat r
  let ext := lookupExt reg format
  let w := w.SetHeader ContentType format
  let code := resolveCode r
  match w.WriteHeader code with
  | .error e => .error e
  | .ok w =>
    let ext := dotExt ext
    let file := exactFile path code ext
    match fs file with
    | none =>
      let scode := Itoa code
      match firstChar scode with
      | none => .error Fault.indexOutOfRange
      | some c =>
        let file2 := classFile path c ext
        match fs file2 with
        | none =>
          match NotFound w with
          | .error e => .error e
          | .ok w => .ok { w := w, metrics := m, opened := [file, file2] }
        | some content => .ok { w := w.Write content, metrics := m, opened := [file, file2] }
    | some content =>
      let w := w.Write content
      let proto := Itoa r.ProtoMajor ++ "." ++ Itoa r.ProtoMinor
      .ok { w := w, metrics := (m.Inc proto).Observe proto, opened := [file] }

/-- The handler run on a sequence of requests, one after the other, over the
same files; the metrics are carried from one request to the next.  The server
recovers from a fault of a handler and goes on with the next request. -/
def serveAll (reg : String → Except String (List String)) (fs : String → Option Bytes)
    (path : String) : List Request → Metrics → Metrics
  | [], m => m
  | r :: rs, m =>
    match errorHandler reg fs path r (ResponseWriter.fresh r.Method) m with
    | .error _ => serveAll reg fs path rs m
    | .ok res => serveAll reg fs path rs res.metrics

/-! ## Reference notions used in statements -/

/-- Decimal text of a natural number, most significant digit first. -/
def decimal (u : Nat) : List Char :=
  if u < 10 then [digitChar u] else decimal (u / 10) ++ [digitChar u]
termination_by u
decreasing_by omega

/-- The leading decimal digit of a natural number. -/
def leadingDigit (n : Nat) : Nat := n / 10 ^ Nat.log 10 n

/-- A decimal integer text: an optional sign, then one or more decimal
digits. -/
def isDecimalText (s : String) : Bool :=
  match s.data with
  | [] => false
  | c :: cs =>
    let ds := if c = '-' ∨ c = '+' then cs else c :: cs
    !ds.isEmpty && ds.all Char.isDigit

/-- Lines 120-121: the label `<major>.<minor>` of a request. -/
def protoLabel (r : Request) : String :=
  Itoa r.ProtoMajor ++ "." ++ Itoa r.ProtoMinor

/-- Whether a request reaches lines 118-124: its code passes `WriteHeader` and
its exact file opens. -/
def exactServed (reg : String → Except String (List String)) (fs : String → Option Bytes)
    (path : String) (r : Request) : Bool :=
  decide (100 ≤ resolveCode r ∧ resolveCode r ≤ 999) &&
    (fs (exactFile path (resolveCode r) (resolveExt reg r))).isSome

/-- The fault of a run, if it ended with one. -/
def faultOf {α : Type} : Except Fault α → Option Fault
  | .error e => some e
  | .ok _ => none

/-! ## Sample inputs -/

/-- A registry that knows `text/html` and `application/json`, in the order
of the sorted list Go returns. -/
def sampleReg : String → Except String (List String) := fun t =>
  if t = "text/html" then .ok [".htm", ".html"]
  else if t = "application/json" then .ok [".json"]
  else if t = "" then .error "mime: no media type"
  else .ok []

/-- A registry whose first extension for `text/html` is `.html`. -/
def htmlReg : String → Except String (List String) := fun t =>
  if t = "text/html" then .ok [".html"]
  else if t = "application/json" then .ok [".json"]
  else .ok []

/-- An empty root directory. -/
def emptyFs : String → Option Bytes := fun _ => none

/-- A files function from a list of names with contents. -/
def filesOf (l : List (String × Bytes)) : String → Option Bytes := fun p => l.lookup p

/-- A root with both `404.html` and `4xx.html`. -/
def bothFs : String → Option Bytes :=
  filesOf [("/www/404.html", [52, 48, 52]), ("/www/4xx.html", [52, 120, 120])]

/-- A root with `5xx.json` only. -/
def jsonFs : String → Option Bytes := filesOf [("/www/5xx.json", [123, 125])]

/-- A root with `5xx.html` only. -/
def classFs : String → Option Bytes := filesOf [("/www/5xx.html", [53, 120, 120])]

/-- A root with `100.html` and `204.json`, and the class file `3xx.json`. -/
def oddFs : String → Option Bytes :=
  filesOf [("/www/100.html", [49, 48, 48]), ("/www/204.json", [123, 125]),
    ("/www/3xx.json", [91, 93])]

/-- A `GET` request with the given headers over HTTP/1.1. -/
def req11 (h : Header) : Request :=
  { Method := "GET", Header := h, ProtoMajor := 1, ProtoMinor := 1 }

/-! ## Lemmas: decimal text -/

theorem formatDigits_ne_nil (fuel u : Nat) (acc : List Char) (h : acc ≠ []) :
    formatDigits fuel u acc ≠ [] := by
  induction fuel generalizing u acc with
  | zero => simpa [formatDigits] using h
  | succ k ih =>
    simp only [formatDigits]
    split
    · simp
    · exact ih _ _ (by simp)

theorem formatUint_ne_nil (u : Nat) : formatUint u ≠ [] := by
  unfold formatUint
  simp only [formatDigits]
  split
  · simp
  · exact formatDigits_ne_nil _ _ _ (by simp)

theorem Itoa_data_ne_nil (i : Int) : (Itoa i).data ≠ [] := by
  unfold Itoa
  split
  · simp
  · exact formatUint_ne_nil _

theorem firstChar_Itoa (i : Int) : ∃ c, firstChar (Itoa i) = some c := by
  have h := Itoa_data_ne_nil i
  unfold firstChar
  cases hd : (Itoa i).data with
  | nil => exact absurd hd h
  | cons c cs => exact ⟨c, rfl⟩

theorem formatDigits_eq (fuel u : Nat) (acc : List Char) (h : u < fuel) :
    formatDigits fuel u acc = decimal u ++ acc := by
  induction fuel generalizing u acc with
  | zero => omega
  | succ k ih =>
    simp only [formatDigits]
    rw [decimal]
    by_cases h10 : u / 10 = 0
    · have : u < 10 := by omega
      simp [h10, this]
    · have hlt : ¬ u < 10 := by omega
      have hk : u / 10 < k := by omega
      simp [h10, hlt, ih _ _ hk]

theorem formatUint_eq (u : Nat) : formatUint u = decimal u := by
  unfold formatUint
  rw [formatDigits_eq _ _ _ (Nat.lt_succ_self u)]
  simp

theorem decimal_ne_nil (u : Nat) : decimal u ≠ [] := by
  rw [← formatUint_eq]
  exact formatUint_ne_nil u

theorem leadingDigit_of_lt {u : Nat} (h : u < 10) : leadingDigit u = u := by
  unfold leadingDigit
  rw [Nat.log_of_lt h]
  simp

theorem leadingDigit_div {u : Nat} (h : 10 ≤ u) : leadingDigit (u / 10) = leadingDigit u := by
  unfold leadingDigit
  rw [Nat.log_of_one_lt_of_le (by decide) h, pow_succ, Nat.div_div_eq_div_mul, Nat.mul_comm]

theorem leadingDigit_lt (u : Nat) : leadingDigit u < 10 := by
  induction u using Nat.strong_induction_on with
  | _ u ih =>
    by_cases h : u < 10
    · rw [leadingDigit_of_lt h]; exact h
    · have h10 : 10 ≤ u := by omega
      rw [← leadingDigit_div h10]
      exact ih _ (by omega)

theorem leadingDigit_three {u : Nat} (h1 : 100 ≤ u) (h2 : u ≤ 999) : leadingDigit u = u / 100 := by
  rw [← leadingDigit_div (by omega), ← leadingDigit_div (by omega), leadingDigit_of_lt (by omega)]
  omega

theorem decimal_head (u : Nat) : (decimal u).head? = some (digitChar (leadingDigit u)) := by
  induction u using Nat.strong_induction_on with
  | _ u ih =>
    rw [decimal]
    by_cases h : u < 10
    · simp [h, leadingDigit_of_lt h]
    · have h10 : 10 ≤ u := by omega
      simp only [h, if_false]
      rw [List.head?_append_of_ne_nil _ (decimal_ne_nil _), ih _ (by omega), leadingDigit_div h10]

theorem digitChar_isDigit (d : Nat) : (digitChar d).isDigit = true := by
  have h : d % 10 < 10 := Nat.mod_lt _ (by decide)
  unfold digitChar
  generalize d % 10 = k at h
  interval_cases k <;> rfl

theorem digitValue_digitChar (d : Nat) : digitValue (digitChar d) = some (d % 10) := by
  have h : d % 10 < 10 := Nat.mod_lt _ (by decide)
  unfold digitChar
  generalize d % 10 = k at h
  interval_cases k <;> rfl

theorem digitChar_ne_sign (d : Nat) : digitChar d ≠ '-' ∧ digitChar d ≠ '+' ∧ digitChar d ≠ 'x' := by
  have h : d % 10 < 10 := Nat.mod_lt _ (by decide)
  unfold digitChar
  generalize d % 10 = k at h
  interval_cases k <;> decide

theorem parseDigits_append (xs ys : List Char) (a : Nat) :
    parseDigits (xs ++ ys) a = (parseDigits xs a).bind (parseDigits ys) := by
  induction xs generalizing a with
  | nil => simp [parseDigits]
  | cons c cs ih =>
    simp only [List.cons_append, parseDigits]
    cases digitValue c with
    | none => simp
    | some d => simp [ih]

theorem parseDigits_decimal (u : Nat) : parseDigits (decimal u) 0 = some u := by
  induction u using Nat.strong_induction_on with
  | _ u ih =>
    rw [decimal]
    by_cases h : u < 10
    · simp [h, parseDigits, digitValue_digitChar, Nat.mod_eq_of_lt h]
    · simp only [h, if_false]
      rw [parseDigits_append, ih _ (by omega)]
      simp only [Option.some_bind, parseDigits, digitValue_digitChar]
      congr 1
      omega

theorem decimal_mem (u : Nat) : ∀ ch ∈ decimal u, ∃ d, ch = digitChar d := by
  induction u using Nat.strong_induction_on with
  | _ u ih =>
    intro ch hch
    rw [decimal] at hch
    by_cases h : u < 10
    · simp [h] at hch
      exact ⟨u, hch⟩
    · simp only [h, if_false, List.mem_append, List.mem_singleton] at hch
      rcases hch with hch | hch
      · exact ih _ (by omega) ch hch
      · exact ⟨u, hch⟩

theorem Itoa_data_nonneg {i : Int} (h : 0 ≤ i) : (Itoa i).data = decimal i.natAbs := by
  have : ¬ i < 0 := by omega
  simp [Itoa, this, formatUint_eq]

theorem Itoa_data_neg {i : Int} (h : i < 0) : (Itoa i).data = '-' :: decimal i.natAbs := by
  simp [Itoa, h, formatUint_eq]

theorem firstChar_eq_head (s : String) : firstChar s = s.data.head? := by
  unfold firstChar
  cases s.data <;> rfl

theorem firstChar_Itoa_nonneg {i : Int} (h : 0 ≤ i) :
    firstChar (Itoa i) = some (digitChar (leadingDigit i.natAbs)) := by
  rw [firstChar_eq_head, Itoa_data_nonneg h, decimal_head]

theorem firstChar_Itoa_neg {i : Int} (h : i < 0) : firstChar (Itoa i) = some '-' := by
  rw [firstChar_eq_head, Itoa_data_neg h]
  rfl

theorem Itoa_no_x (i : Int) : 'x' ∉ (Itoa i).data := by
  intro hx
  by_cases h : i < 0
  · rw [Itoa_data_neg h] at hx
    simp only [List.mem_cons] at hx
    rcases hx with hx | hx
    · exact absurd hx (by decide)
    · obtain ⟨d, hd⟩ := decimal_mem _ _ hx
      exact (digitChar_ne_sign d).2.2 hd.symm
  · rw [Itoa_data_nonneg (by omega)] at hx
    obtain ⟨d, hd⟩ := decimal_mem _ _ hx
    exact (digitChar_ne_sign d).2.2 hd.symm

/-- The two file names of one request are never the same name. -/
theorem exactFile_ne_classFile (path : String) (code : Int) (c : Char) (ext : String) :
    exactFile path code ext ≠ classFile path c ext := by
  intro h
  have hd := congrArg String.data h
  simp only [exactFile, classFile, String.data_append, List.append_assoc,
    List.append_cancel_left_eq] at hd
  have hx : 'x' ∈ (Itoa code).data := by
    have h2 : (Itoa code).data ++ ext.data = ([c, 'x', 'x'] : List Char) ++ ext.data := by
      simpa [String.singleton] using hd
    rw [List.append_cancel_right h2]
    simp
  exact Itoa_no_x code hx

/-- Reading back the decimal text of an integer gives the integer when it is
in the `int` range and fails when it is not. -/
theorem Atoi_Itoa_eq (i : Int) :
    Atoi (Itoa i) = if -(2 ^ 63 : Int) ≤ i ∧ i < 2 ^ 63 then some i else none := by
  by_cases h : i < 0
  · have hne := decimal_ne_nil i.natAbs
    have habs := abs_of_neg h
    by_cases hr : -(2 ^ 63 : Int) ≤ i
    · have hle : ¬ i.natAbs > 2 ^ 63 := by omega
      have hhi : i < 2 ^ 63 := by omega
      rw [if_pos ⟨hr, hhi⟩]
      simp [Atoi, Itoa_data_neg h, hne, parseDigits_decimal, intSize, hle]
      omega
    · have hle : i.natAbs > 2 ^ 63 := by omega
      rw [if_neg (fun hc => hr hc.1)]
      simp [Atoi, Itoa_data_neg h, hne, parseDigits_decimal, intSize]
      omega
  · have h0 : 0 ≤ i := by omega
    have hhead := decimal_head i.natAbs
    have habs := abs_of_nonneg h0
    unfold Atoi
    rw [Itoa_data_nonneg h0]
    cases hdec : decimal i.natAbs with
    | nil => exact absurd hdec (decimal_ne_nil _)
    | cons c cs =>
      rw [hdec] at hhead
      simp only [List.head?_cons, Option.some.injEq] at hhead
      have hs := digitChar_ne_sign (leadingDigit i.natAbs)
      rw [← hhead] at hs
      have hp := parseDigits_decimal i.natAbs
      rw [hdec] at hp
      have hlo : -(2 ^ 63 : Int) ≤ i := by omega
      by_cases hr : i < 2 ^ 63
      · have hlt : ¬ i.natAbs ≥ 2 ^ 63 := by omega
        rw [if_pos ⟨hlo, hr⟩]
        simp [hs.1, hs.2.1, hp, intSize, hlt]
        omega
      · have hlt : i.natAbs ≥ 2 ^ 63 := by omega
        rw [if_neg (fun hc => hr hc.2)]
        simp [hs.1, hs.2.1, hp, intSize]
        omega

/-- Every integer of the `int` range is read back from its decimal text. -/
theorem Atoi_Itoa (i : Int) (hlo : -(2 ^ 63 : Int) ≤ i) (hhi : i < 2 ^ 63) :
    Atoi (Itoa i) = some i := by
  rw [Atoi_Itoa_eq, if_pos ⟨hlo, hhi⟩]

theorem isDigit_iff (c : Char) : c.isDigit = true ↔ 48 ≤ c.toNat ∧ c.toNat ≤ 57 := by
  simp [Char.isDigit, Char.toNat, UInt32.le_def, Fin.le_def]
  rfl

theorem digitValue_isDigit {c : Char} {d : Nat} (h : digitValue c = some d) : c.isDigit = true := by
  unfold digitValue at h
  split at h
  · rename_i hc
    exact (isDigit_iff c).2 hc
  · exact absurd h (by simp)

theorem parseDigits_all {ds : List Char} {a v : Nat} (h : parseDigits ds a = some v) :
    ds.all Char.isDigit = true := by
  induction ds generalizing a with
  | nil => rfl
  | cons c cs ih =>
    simp only [parseDigits] at h
    cases hd : digitValue c with
    | none => rw [hd] at h; exact absurd h (by simp)
    | some d =>
      rw [hd] at h
      simp only [List.all_cons, Bool.and_eq_true]
      exact ⟨digitValue_isDigit hd, ih h⟩

/-- The result of `Atoi` in terms of the digits left after the sign. -/
theorem Atoi_cons {s : String} {c : Char} {cs ds : List Char} (hs : s.data = c :: cs)
    (hds : (if c = '-' ∨ c = '+' then cs else c :: cs) = ds) :
    Atoi s = if ds = [] then none else
      match parseDigits ds 0 with
      | none => none
      | some un =>
        if c = '-' then
          if un > 2 ^ 63 then none else some (-(un : Int))
        else
          if un ≥ 2 ^ 63 then none else some (un : Int) := by
  unfold Atoi
  rw [hs]
  simp only [hds, intSize]

/-- Only a decimal integer text is read as an integer. -/
theorem Atoi_isDecimalText {s : String} {n : Int} (h : Atoi s = some n) :
    isDecimalText s = true := by
  cases hs : s.data with
  | nil => simp [Atoi, hs] at h
  | cons c cs =>
    rw [Atoi_cons hs rfl] at h
    unfold isDecimalText
    rw [hs]
    simp only
    generalize (if c = '-' ∨ c = '+' then cs else c :: cs) = ds at h ⊢
    split at h
    · exact absurd h (by simp)
    · rename_i hne
      cases hp : parseDigits ds 0 with
      | none => rw [hp] at h; exact absurd h (by simp)
      | some un =>
        simp only [Bool.and_eq_true, Bool.not_eq_true', List.isEmpty_eq_false]
        exact ⟨hne, parseDigits_all hp⟩

/-- The integer read from a text fits `int`. -/
theorem Atoi_range {s : String} {n : Int} (h : Atoi s = some n) :
    -(2 ^ 63 : Int) ≤ n ∧ n < 2 ^ 63 := by
  cases hs : s.data with
  | nil => simp [Atoi, hs] at h
  | cons c cs =>
    rw [Atoi_cons hs rfl] at h
    generalize (if c = '-' ∨ c = '+' then cs else c :: cs) = ds at h
    split at h
    · exact absurd h (by simp)
    · cases hp : parseDigits ds 0 with
      | none => rw [hp] at h; exact absurd h (by simp)
      | some un =>
        rw [hp] at h
        simp only at h
        split at h <;> split at h
        · exact absurd h (by simp)
        · simp only [Option.some.injEq] at h; omega
        · exact absurd h (by simp)
        · simp only [Option.some.injEq] at h; omega

/-! ## Lemmas: format, extension and code -/

theorem HasPrefix_dot (e : String) : HasPrefix e "." = true ↔ firstChar e = some '.' := by
  unfold HasPrefix firstChar
  cases e.data with
  | nil => simp [List.isPrefixOf]
  | cons c cs =>
    have : ("." : String).data = ['.'] := rfl
    rw [this]
    simp [List.isPrefixOf]
    exact eq_comm

theorem dotExt_of_dot {e : String} (h : firstChar e = some '.') : dotExt e = e := by
  have := (HasPrefix_dot e).2 h
  simp [dotExt, this]

theorem dotExt_of_no_dot {e : String} (h : firstChar e ≠ some '.') : dotExt e = "." ++ e := by
  have : HasPrefix e "." = false := by
    cases hp : HasPrefix e "." with
    | false => rfl
    | true => exact absurd ((HasPrefix_dot e).1 hp) h
  simp [dotExt, this]

theorem firstChar_dotExt (e : String) : firstChar (dotExt e) = some '.' := by
  by_cases h : firstChar e = some '.'
  · rw [dotExt_of_dot h]; exact h
  · rw [dotExt_of_no_dot h]; rfl

theorem resolveFormat_of_empty {r : Request} (h : r.Header.Get FormatHeader = "") :
    resolveFormat r = "text/html" := by
  simp [resolveFormat, h]

theorem resolveFormat_of_ne {r : Request} (h : r.Header.Get FormatHeader ≠ "") :
    resolveFormat r = r.Header.Get FormatHeader := by
  simp [resolveFormat, h]

theorem resolveCode_of_some {r : Request} {n : Int} (h : Atoi (r.Header.Get CodeHeader) = some n) :
    resolveCode r = n := by
  simp [resolveCode, h]

theorem resolveCode_of_none {r : Request} (h : Atoi (r.Header.Get CodeHeader) = none) :
    resolveCode r = 404 := by
  simp [resolveCode, h]

theorem Header.Get_absent {h : Header} {k : String} (ha : h.lookup k = none) : Header.Get h k = "" := by
  simp [Header.Get, ha]


/-! ## Lemmas: headers and the response writer -/

theorem Header.Get_Set (h : Header) (k v : String) : (Header.Set h k v).Get k = v := by
  simp [Header.Get, Header.Set, List.lookup]

theorem WriteHeader_invalid (w : ResponseWriter) (code : Int) (hw : w.status = none)
    (hc : code < 100 ∨ 999 < code) :
    w.WriteHeader code = .error (Fault.invalidWriteHeaderCode code) := by
  have hc2 : code < 100 ∨ code > 999 := hc
  simp [ResponseWriter.WriteHeader, hw, hc2]

theorem WriteHeader_interim (w : ResponseWriter) (code : Int) (hw : w.status = none)
    (h1 : 100 ≤ code) (h2 : code ≤ 199) (h3 : code ≠ 101) :
    w.WriteHeader code = .ok { w with interim := w.interim ++ [code] } := by
  have hc : ¬ (code < 100 ∨ code > 999) := by omega
  simp [ResponseWriter.WriteHeader, hw, hc, h1, h2, h3]

theorem WriteHeader_commit (w : ResponseWriter) (code : Int) (hw : w.status = none)
    (h1 : 200 ≤ code) (h2 : code ≤ 999) :
    w.WriteHeader code = .ok (w.commit code) := by
  have hc : ¬ (code < 100 ∨ code > 999) := by omega
  have hi : ¬ (100 ≤ code ∧ code ≤ 199 ∧ code ≠ 101) := by omega
  simp only [ResponseWriter.WriteHeader, hw, hc, hi, if_false]

theorem WriteHeader_ok (w : ResponseWriter) (code : Int) (h1 : 100 ≤ code) (h2 : code ≤ 999) :
    ∃ w1, w.WriteHeader code = .ok w1 := by
  have hc : ¬ (code < 100 ∨ code > 999) := by omega
  unfold ResponseWriter.WriteHeader
  cases w.status with
  | some s => exact ⟨_, rfl⟩
  | none =>
    simp only [hc, if_false]
    split <;> exact ⟨_, rfl⟩

theorem Write_committed (w : ResponseWriter) (s : Int) (b : Bytes) (h : w.status = some s) :
    (w.Write b).status = some s ∧ (w.Write b).sentHeader = w.sentHeader ∧
      (bodyAllowedForStatus s = true → w.method ≠ "HEAD" → (w.Write b).body = w.body ++ b) := by
  unfold ResponseWriter.Write
  simp only [h]
  split <;> simp_all

theorem NotFound_ok (w : ResponseWriter) :
    ∃ w2, NotFound w = .ok w2 ∧
      ∀ s, w.status = some s → w2.status = some s ∧ w2.sentHeader = w.sentHeader := by
  unfold NotFound Error
  obtain ⟨w3, hw3⟩ := WriteHeader_ok
    ((w.SetHeader ContentType "text/plain; charset=utf-8").SetHeader
      "X-Content-Type-Options" "nosniff") 404 (by decide) (by decide)
  simp only [hw3]
  refine ⟨_, rfl, ?_⟩
  intro s hs
  have h3 : w3 = (w.SetHeader ContentType "text/plain; charset=utf-8").SetHeader
      "X-Content-Type-Options" "nosniff" := by
    have : (((w.SetHeader ContentType "text/plain; charset=utf-8").SetHeader
      "X-Content-Type-Options" "nosniff").WriteHeader 404) = .ok
        ((w.SetHeader ContentType "text/plain; charset=utf-8").SetHeader
          "X-Content-Type-Options" "nosniff") := by
      simp [ResponseWriter.WriteHeader, ResponseWriter.SetHeader, hs]
    rw [this] at hw3
    exact (Except.ok.inj hw3).symm
  have hst : w3.status = some s := by rw [h3]; exact hs
  obtain ⟨ha, hb, _⟩ := Write_committed w3 s (stringBytes ("404 page not found" ++ "\n")) hst
  refine ⟨ha, ?_⟩
  rw [hb, h3]
  rfl

/-- The writer after lines 84 and 92, for a code that is committed. -/
theorem fresh_commit (method format : String) (code : Int) :
    (((ResponseWriter.fresh method).SetHeader ContentType format).commit code).status = some code ∧
    (((ResponseWriter.fresh method).SetHeader ContentType format).commit code).method = method ∧
    (((ResponseWriter.fresh method).SetHeader ContentType format).commit code).body = [] ∧
    (code ≠ 304 →
      (((ResponseWriter.fresh method).SetHeader ContentType format).commit code).sentHeader.Get
        ContentType = format) := by
  refine ⟨rfl, rfl, rfl, ?_⟩
  intro h
  simp [ResponseWriter.commit, ResponseWriter.SetHeader, ResponseWriter.fresh, h, Header.Get_Set]

/-! ## Lemmas: the ways through the handler -/

theorem errorHandler_fault (reg : String → Except String (List String))
    (fs : String → Option Bytes) (path : String) (r : Request) (w : ResponseWriter)
    (m : Metrics) (e : Fault)
    (hw : (w.SetHeader ContentType (resolveFormat r)).WriteHeader (resolveCode r) = .error e) :
    errorHandler reg fs path r w m = .error e := by
  simp only [errorHandler, hw]

theorem errorHandler_exact (reg : String → Except String (List String))
    (fs : String → Option Bytes) (path : String) (r : Request) (w w1 : ResponseWriter)
    (m : Metrics) (content : Bytes)
    (hw : (w.SetHeader ContentType (resolveFormat r)).WriteHeader (resolveCode r) = .ok w1)
    (h : fs (exactFile path (resolveCode r) (resolveExt reg r)) = some content) :
    errorHandler reg fs path r w m = .ok
      { w := w1.Write content,
        metrics := (m.Inc (Itoa r.ProtoMajor ++ "." ++ Itoa r.ProtoMinor)).Observe
          (Itoa r.ProtoMajor ++ "." ++ Itoa r.ProtoMinor),
        opened := [exactFile path (resolveCode r) (resolveExt reg r)] } := by
  unfold resolveExt at h
  simp only [errorHandler, hw, h]
  rfl

theorem errorHandler_class (reg : String → Except String (List String))
    (fs : String → Option Bytes) (path : String) (r : Request) (w w1 : ResponseWriter)
    (m : Metrics) (c : Char) (content : Bytes)
    (hw : (w.SetHeader ContentType (resolveFormat r)).WriteHeader (resolveCode r) = .ok w1)
    (h : fs (exactFile path (resolveCode r) (resolveExt reg r)) = none)
    (hc : firstChar (Itoa (resolveCode r)) = some c)
    (h2 : fs (classFile path c (resolveExt reg r)) = some content) :
    errorHandler reg fs path r w m = .ok
      { w := w1.Write content,
        metrics := m,
        opened := [exactFile path (resolveCode r) (resolveExt reg r),
          classFile path c (resolveExt reg r)] } := by
  unfold resolveExt at h h2
  simp only [errorHandler, hw, h, hc, h2]
  rfl

theorem errorHandler_notFound (reg : String → Except String (List String))
    (fs : String → Option Bytes) (path : String) (r : Request) (w w1 w2 : ResponseWriter)
    (m : Metrics) (c : Char)
    (hw : (w.SetHeader ContentType (resolveFormat r)).WriteHeader (resolveCode r) = .ok w1)
    (h : fs (exactFile path (resolveCode r) (resolveExt reg r)) = none)
    (hc : firstChar (Itoa (resolveCode r)) = some c)
    (h2 : fs (classFile path c (resolveExt reg r)) = none)
    (hn : NotFound w1 = .ok w2) :
    errorHandler reg fs path r w m = .ok
      { w := w2,
        metrics := m,
        opened := [exactFile path (resolveCode r) (resolveExt reg r),
          classFile path c (resolveExt reg r)] } := by
  unfold resolveExt at h h2
  simp only [errorHandler, hw, h, hc, h2, hn]
  rfl

/-- A code below 100 or above 999 ends the run at line 92. -/
theorem errorHandler_invalid_code (reg : String → Except String (List String))
    (fs : String → Option Bytes) (path : String) (r : Request) (m : Metrics)
    (hc : resolveCode r < 100 ∨ 999 < resolveCode r) :
    errorHandler reg fs path r (ResponseWriter.fresh r.Method) m =
      .error (Fault.invalidWriteHeaderCode (resolveCode r)) :=
  errorHandler_fault reg fs path r _ m _ (WriteHeader_invalid _ _ rfl hc)

/-- The first character of the decimal text of a three-digit code. -/
theorem firstChar_three {code : Int} (h1 : 100 ≤ code) (h2 : code ≤ 999) :
    firstChar (Itoa code) = some (digitChar (code.natAbs / 100)) := by
  rw [firstChar_Itoa_nonneg (by omega), leadingDigit_three (by omega) (by omega)]

/-- For a code from 100 to 999 every run ends with a result; the names opened
are the exact file, followed by the class file when the exact file did not
open; from 200 on the committed status is the code and, 304 apart, the
committed `Content-Type` is the resolved format. -/
theorem errorHandler_run (reg : String → Except String (List String))
    (fs : String → Option Bytes) (path : String) (r : Request) (m : Metrics)
    (h1 : 100 ≤ resolveCode r) (h2 : resolveCode r ≤ 999) :
    ∃ res, errorHandler reg fs path r (ResponseWriter.fresh r.Method) m = .ok res ∧
      (res.opened = [exactFile path (resolveCode r) (resolveExt reg r)] ∨
        res.opened = [exactFile path (resolveCode r) (resolveExt reg r),
          classFile path (digitChar ((resolveCode r).natAbs / 100)) (resolveExt reg r)]) ∧
      (200 ≤ resolveCode r →
        res.w.status = some (resolveCode r) ∧
        (resolveCode r ≠ 304 → res.w.sentHeader.Get ContentType = resolveFormat r)) := by
  obtain ⟨w1, hw1⟩ := WriteHeader_ok
    ((ResponseWriter.fresh r.Method).SetHeader ContentType (resolveFormat r)) (resolveCode r) h1 h2
  have hc := firstChar_three h1 h2
  have hcommit : 200 ≤ resolveCode r → w1 =
      ((ResponseWriter.fresh r.Method).SetHeader ContentType (resolveFormat r)).commit
        (resolveCode r) := by
    intro h200
    rw [WriteHeader_commit _ _ rfl h200 h2] at hw1
    exact (Except.ok.inj hw1).symm
  obtain ⟨hfs, _, _, hfct⟩ := fresh_commit r.Method (resolveFormat r) (resolveCode r)
  cases h : fs (exactFile path (resolveCode r) (resolveExt reg r)) with
  | some content =>
    refine ⟨_, errorHandler_exact reg fs path r _ w1 m content hw1 h, Or.inl rfl, ?_⟩
    intro h200
    have hst : w1.status = some (resolveCode r) := by rw [hcommit h200]; exact hfs
    obtain ⟨ha, hb, _⟩ := Write_committed w1 _ content hst
    refine ⟨ha, fun h304 => ?_⟩
    show Header.Get (w1.Write content).sentHeader ContentType = _
    rw [hb, hcommit h200]
    exact hfct h304
  | none =>
    cases h2' : fs (classFile path (digitChar ((resolveCode r).natAbs / 100))
        (resolveExt reg r)) with
    | some content =>
      refine ⟨_, errorHandler_class reg fs path r _ w1 m _ content hw1 h hc h2', Or.inr rfl, ?_⟩
      intro h200
      have hst : w1.status = some (resolveCode r) := by rw [hcommit h200]; exact hfs
      obtain ⟨ha, hb, _⟩ := Write_committed w1 _ content hst
      refine ⟨ha, fun h304 => ?_⟩
      show Header.Get (w1.Write content).sentHeader ContentType = _
      rw [hb, hcommit h200]
      exact hfct h304
    | none =>
      obtain ⟨w2, hw2, hkeep⟩ := NotFound_ok w1
      refine ⟨_, errorHandler_notFound reg fs path r _ w1 w2 m _ hw1 h hc h2' hw2, Or.inr rfl, ?_⟩
      intro h200
      have hst : w1.status = some (resolveCode r) := by rw [hcommit h200]; exact hfs
      obtain ⟨ha, hb⟩ := hkeep _ hst
      refine ⟨ha, fun h304 => ?_⟩
      show Header.Get w2.sentHeader ContentType = _
      rw [hb, hcommit h200]
      exact hfct h304


/-- A run that ends with a result had a code from 100 to 999. -/
theorem errorHandler_ok_range (reg : String → Except String (List String))
    (fs : String → Option Bytes) (path : String) (r : Request) (m : Metrics) (res : Result)
    (h : errorHandler reg fs path r (ResponseWriter.fresh r.Method) m = .ok res) :
    100 ≤ resolveCode r ∧ resolveCode r ≤ 999 := by
  by_cases hc : resolveCode r < 100 ∨ 999 < resolveCode r
  · rw [errorHandler_invalid_code reg fs path r m hc] at h
    exact absurd h (by simp)
  · omega

/-- The body sent when the file bytes are written after the code is
committed. -/
theorem served_body (method format : String) (code : Int) (content : Bytes)
    (h200 : 200 ≤ code) (h204 : code ≠ 204) (h304 : code ≠ 304) (hm : method ≠ "HEAD") :
    ((((ResponseWriter.fresh method).SetHeader ContentType format).commit code).Write
      content).body = content := by
  obtain ⟨hst, hme, hbody, _⟩ := fresh_commit method format code
  have hallowed : bodyAllowedForStatus code = true := by
    have h1 : ¬ (100 ≤ code ∧ code ≤ 199) := by omega
    simp [bodyAllowedForStatus, h1, h204, h304]
  obtain ⟨_, _, hb⟩ := Write_committed _ code content hst
  rw [hb hallowed (by rw [hme]; exact hm), hbody]
  rfl

/-! ## Lemmas: the request counter -/

/-- One request adds one to the counter of its label when its code passes
`WriteHeader` and its exact file opens, and leaves every counter as it is
otherwise. -/
theorem step_requestCount (reg : String → Except String (List String))
    (fs : String → Option Bytes) (path : String) (r : Request) (m : Metrics) (label : String) :
    (match errorHandler reg fs path r (ResponseWriter.fresh r.Method) m with
      | .error _ => m
      | .ok res => res.metrics).requestCount label =
      m.requestCount label +
        (if exactServed reg fs path r = true ∧ label = protoLabel r then 1 else 0) := by
  by_cases hc : resolveCode r < 100 ∨ 999 < resolveCode r
  · have hr : ¬ (100 ≤ resolveCode r ∧ resolveCode r ≤ 999) := by omega
    rw [errorHandler_invalid_code reg fs path r m hc]
    simp [exactServed, hr]
  · have hr : 100 ≤ resolveCode r ∧ resolveCode r ≤ 999 := by omega
    obtain ⟨w1, hw1⟩ := WriteHeader_ok
      ((ResponseWriter.fresh r.Method).SetHeader ContentType (resolveFormat r)) (resolveCode r)
      hr.1 hr.2
    have hcf := firstChar_three hr.1 hr.2
    cases h : fs (exactFile path (resolveCode r) (resolveExt reg r)) with
    | some content =>
      rw [errorHandler_exact reg fs path r _ w1 m content hw1 h]
      by_cases hl : label = protoLabel r
      · simp [Metrics.Inc, Metrics.Observe, hl, protoLabel, exactServed, hr, h]
      · have hl2 : ¬ label = Itoa r.ProtoMajor ++ "." ++ Itoa r.ProtoMinor := hl
        simp [Metrics.Inc, Metrics.Observe, hl, hl2]
    | none =>
      cases h2 : fs (classFile path (digitChar ((resolveCode r).natAbs / 100))
          (resolveExt reg r)) with
      | some content =>
        rw [errorHandler_class reg fs path r _ w1 m _ content hw1 h hcf h2]
        simp [exactServed, h]
      | none =>
        obtain ⟨w2, hw2, _⟩ := NotFound_ok w1
        rw [errorHandler_notFound reg fs path r _ w1 w2 m _ hw1 h hcf h2 hw2]
        simp [exactServed, h]

/-- Over a sequence of requests with one label, the counter of that label
grows by the number of requests whose exact file was served. -/
theorem serveAll_requestCount (reg : String → Except String (List String))
    (fs : String → Option Bytes) (path : String) (label : String) (rs : List Request)
    (m : Metrics) (hl : ∀ r ∈ rs, protoLabel r = label) :
    (serveAll reg fs path rs m).requestCount label = m.requestCount label +
      (rs.filter (fun r => exactServed reg fs path r)).length := by
  induction rs generalizing m with
  | nil => simp [serveAll]
  | cons r rs ih =>
    have hstep := step_requestCount reg fs path r m label
    have hlab : label = protoLabel r := (hl r (List.mem_cons_self _ _)).symm
    have hrest : ∀ x ∈ rs, protoLabel x = label := fun x hx => hl x (List.mem_cons_of_mem _ hx)
    simp only [serveAll]
    cases he : errorHandler reg fs path r (ResponseWriter.fresh r.Method) m with
    | error e =>
      rw [he] at hstep
      simp only at hstep ⊢
      rw [ih m hrest]
      by_cases ho : exactServed reg fs path r = true
      · simp [ho, hlab] at hstep
      · have ho2 : exactServed reg fs path r = false := by simpa using ho
        simp [List.filter, ho2]
    | ok res =>
      rw [he] at hstep
      simp only at hstep ⊢
      rw [ih res.metrics hrest, hstep]
      by_cases ho : exactServed reg fs path r = true
      · simp [List.filter, ho, hlab]
        omega
      · have ho2 : exactServed reg fs path r = false := by simpa using ho
        simp [List.filter, ho2]


/-! ## The claims -/

/-- C1, on the code: with an empty root and `X-Code: 418`, neither
`/www/418.html` nor `/www/4xx.html` opens and the handler calls `NotFound`, but
the status committed to the response is 418, written before the files were
looked for; the 404 of `NotFound` comes second and is dropped. -/
theorem C1_requested_status_kept :
    (errorHandler htmlReg emptyFs "/www" (req11 [("X-Code", "418")]) (ResponseWriter.fresh "GET")
        Metrics.zero).toOption.map (fun res => (res.w.status, res.opened, res.w.body)) =
      some (some 418, ["/www/418.html", "/www/4xx.html"],
        stringBytes "404 page not found\n") ∧
    (NotFound (ResponseWriter.fresh "GET")).toOption.map (fun w => w.status) =
      some (some 404) := by
  decide

/-- C2, on the code: with `5xx.html` only under `/www`, a request with
`X-Code: 503` over HTTP/1.1 is served the bytes of `5xx.html` and the counter
labelled `1.1` stays at 0, also after three such requests; a request served
`404.html` by exact match moves it to 1. -/
theorem C2_fallback_not_counted :
    (errorHandler htmlReg classFs "/www" (req11 [("X-Code", "503")]) (ResponseWriter.fresh "GET")
        Metrics.zero).toOption.map
        (fun res => (res.w.status, res.w.body, res.metrics.requestCount "1.1")) =
      some (some 503, [53, 120, 120], 0) ∧
    (serveAll htmlReg classFs "/www"
        [req11 [("X-Code", "503")], req11 [("X-Code", "503")], req11 [("X-Code", "503")]]
        Metrics.zero).requestCount "1.1" = 0 ∧
    (errorHandler htmlReg bothFs "/www" (req11 [("X-Code", "404")]) (ResponseWriter.fresh "GET")
        Metrics.zero).toOption.map
        (fun res => (res.w.status, res.w.body, res.metrics.requestCount "1.1")) =
      some (some 404, [52, 48, 52], 1) := by
  decide

/-- C3, as stated, fails: with no `X-Format` header and a registry whose first
extension for `text/html` is `.htm`, the format is `text/html` but the
extension is `.htm`, and the files looked for are `/www/404.htm` and
`/www/4xx.htm`. -/
theorem C3_counterexample :
    Header.Get (req11 [("X-Code", "404")]).Header FormatHeader = "" ∧
    sampleReg "text/html" = .ok [".htm", ".html"] ∧
    resolveExt sampleReg (req11 [("X-Code", "404")]) = ".htm" ∧
    ¬ (resolveFormat (req11 [("X-Code", "404")]) = "text/html" ∧
        resolveExt sampleReg (req11 [("X-Code", "404")]) = ".html") ∧
    (errorHandler sampleReg emptyFs "/www" (req11 [("X-Code", "404")]) (ResponseWriter.fresh "GET")
        Metrics.zero).toOption.map (fun res => res.opened) =
      some ["/www/404.htm", "/www/4xx.htm"] :=
  ⟨by decide, rfl, by decide, by decide, by decide⟩

/-- C3, amended: when the `X-Format` header is absent or empty the resolved
format is `text/html`; the extension is what the registry lookup of
`text/html` gives: `.html` when the lookup fails, finds nothing, or finds `html`
or `.html` first, and otherwise the first extension found, with a dot in front
when it has none.  For a code from 100 to 999 the first file opened is built
with that extension, and for a code from 200 on, 304 apart, the committed
`Content-Type` is `text/html`. -/
theorem C3_default_format (reg : String → Except String (List String))
    (fs : String → Option Bytes) (path : String) (r : Request) (m : Metrics)
    (h : r.Header.Get FormatHeader = "") :
    resolveFormat r = "text/html" ∧
    (∀ e, reg "text/html" = .error e → resolveExt reg r = ".html") ∧
    (reg "text/html" = .ok [] → resolveExt reg r = ".html") ∧
    (∀ rest, reg "text/html" = .ok ("html" :: rest) → resolveExt reg r = ".html") ∧
    (∀ rest, reg "text/html" = .ok (".html" :: rest) → resolveExt reg r = ".html") ∧
    (∀ e rest, reg "text/html" = .ok (e :: rest) →
      resolveExt reg r = if HasPrefix e "." then e else "." ++ e) ∧
    (100 ≤ resolveCode r → resolveCode r ≤ 999 →
      ∃ res, errorHandler reg fs path r (ResponseWriter.fresh r.Method) m = .ok res ∧
        res.opened.head? = some (path ++ "/" ++ Itoa (resolveCode r) ++ resolveExt reg r) ∧
        (200 ≤ resolveCode r → resolveCode r ≠ 304 →
          res.w.sentHeader.Get ContentType = "text/html")) := by
  have hf := resolveFormat_of_empty h
  have hcons : ∀ e rest, reg "text/html" = .ok (e :: rest) → resolveExt reg r = dotExt e := by
    intro e rest he
    unfold resolveExt lookupExt
    rw [hf, he]
  refine ⟨hf, ?_, ?_, ?_, ?_, ?_, ?_⟩
  · intro e he
    unfold resolveExt lookupExt
    rw [hf, he]; rfl
  · intro he
    unfold resolveExt lookupExt
    rw [hf, he]; rfl
  · intro rest he
    rw [hcons _ _ he]; rfl
  · intro rest he
    rw [hcons _ _ he]; rfl
  · intro e rest he
    rw [hcons _ _ he]
    unfold dotExt
    cases HasPrefix e "." <;> rfl
  · intro h1 h2
    obtain ⟨res, hres, hop, hcommit⟩ := errorHandler_run reg fs path r m h1 h2
    refine ⟨res, hres, ?_, ?_⟩
    · rcases hop with hop | hop <;> rw [hop] <;> rfl
    · intro h200 h304
      rw [(hcommit h200).2 h304, hf]

/-- With no `X-Format` header and a registry that has `.html` first for
`text/html`, the format is `text/html` and the extension is `.html`. -/
theorem C3_default_format_witness :
    Header.Get (req11 [("X-Code", "404")]).Header FormatHeader = "" ∧
    resolveFormat (req11 [("X-Code", "404")]) = "text/html" ∧
    resolveExt htmlReg (req11 [("X-Code", "404")]) = ".html" :=
  ⟨by decide,
   (C3_default_format htmlReg emptyFs "/www" (req11 [("X-Code", "404")]) Metrics.zero
      (by decide)).1,
   (C3_default_format htmlReg emptyFs "/www" (req11 [("X-Code", "404")]) Metrics.zero
      (by decide)).2.2.2.2.1 [] rfl⟩

/-- C4, as stated, fails: `X-Code: 100` is read as the integer 100 and the
file `/www/100.html` is opened, but 100 goes out as an interim response and the
status of the response is 200. -/
theorem C4_counterexample :
    Atoi (Header.Get (req11 [("X-Code", "100")]).Header CodeHeader) = some 100 ∧
    resolveCode (req11 [("X-Code", "100")]) = 100 ∧
    (errorHandler htmlReg oddFs "/www" (req11 [("X-Code", "100")]) (ResponseWriter.fresh "GET")
        Metrics.zero).toOption.map (fun res => (res.w.interim, res.w.status, res.opened)) =
      some ([100], some 200, ["/www/100.html"]) ∧
    (some (200 : Int) ≠ some 100) := by
  decide

/-- C4, amended: when the `X-Code` value is read by `Atoi` as the integer `n`,
the resolved code is `n`; when moreover 100 ≤ n ≤ 999 the first file opened is
`<root>/<decimal text of n><ext>`, and when 200 ≤ n ≤ 999 the status committed
to the response is `n`.  The decimal text of every integer of the `int` range
is read back as that integer.  When `Atoi` fails the resolved code is 404, and
it fails when the header is absent, when its value is empty, when the value is
not a decimal integer text, and when the value is the decimal text of an
integer outside the `int` range. -/
theorem C4_code_resolution (reg : String → Except String (List String))
    (fs : String → Option Bytes) (path : String) (r : Request) (m : Metrics) :
    (∀ n, Atoi (r.Header.Get CodeHeader) = some n →
      resolveCode r = n ∧
      (100 ≤ n → n ≤ 999 →
        ∃ res, errorHandler reg fs path r (ResponseWriter.fresh r.Method) m = .ok res ∧
          res.opened.head? = some (path ++ "/" ++ Itoa n ++ resolveExt reg r) ∧
          (200 ≤ n → res.w.status = some n))) ∧
    (∀ n : Int, -(2 ^ 63 : Int) ≤ n → n < 2 ^ 63 → r.Header.Get CodeHeader = Itoa n →
      resolveCode r = n) ∧
    (Atoi (r.Header.Get CodeHeader) = none → resolveCode r = 404) ∧
    (r.Header.lookup CodeHeader = none → resolveCode r = 404) ∧
    (r.Header.Get CodeHeader = "" → resolveCode r = 404) ∧
    (isDecimalText (r.Header.Get CodeHeader) = false → resolveCode r = 404) ∧
    (∀ n : Int, (n < -(2 ^ 63 : Int) ∨ 2 ^ 63 ≤ n) → r.Header.Get CodeHeader = Itoa n →
      resolveCode r = 404) := by
  refine ⟨?_, ?_, resolveCode_of_none, ?_, ?_, ?_, ?_⟩
  · intro n hn
    have hcode := resolveCode_of_some hn
    refine ⟨hcode, ?_⟩
    intro h1 h2
    rw [← hcode] at h1 h2 ⊢
    obtain ⟨res, hres, hop, hcommit⟩ := errorHandler_run reg fs path r m h1 h2
    refine ⟨res, hres, ?_, fun h200 => (hcommit h200).1⟩
    rcases hop with hop | hop <;> rw [hop] <;> rfl
  · intro n hlo hhi hn
    exact resolveCode_of_some (by rw [hn]; exact Atoi_Itoa n hlo hhi)
  · intro ha
    exact resolveCode_of_none (by rw [Header.Get_absent ha]; rfl)
  · intro he
    exact resolveCode_of_none (by rw [he]; rfl)
  · intro hd
    apply resolveCode_of_none
    cases ha : Atoi (r.Header.Get CodeHeader) with
    | none => rfl
    | some n => rw [Atoi_isDecimalText ha] at hd; exact absurd hd (by simp)
  · intro n hn hh
    apply resolveCode_of_none
    rw [hh, Atoi_Itoa_eq, if_neg]
    omega

/-- The header `X-Code: 503` gives code 503, status 503 and the file name
`/www/503.html`. -/
theorem C4_code_resolution_witness :
    Atoi (Header.Get (req11 [("X-Code", "503")]).Header CodeHeader) = some 503 ∧
    ∃ res, errorHandler htmlReg emptyFs "/www" (req11 [("X-Code", "503")])
        (ResponseWriter.fresh "GET") Metrics.zero = .ok res ∧
      res.opened.head? = some ("/www/503.html") ∧
      ((200 : Int) ≤ 503 → res.w.status = some 503) :=
  ⟨by decide,
   ((C4_code_resolution htmlReg emptyFs "/www" (req11 [("X-Code", "503")]) Metrics.zero).1 503
    (by decide)).2 (by decide) (by decide)⟩

/-- C5, as stated, fails: with `204.json` under `/www`, `X-Code: 204` and
`X-Format: application/json` open the exact file `/www/204.json`, whose bytes
are `[123, 125]`, and the response has status 204 and no body. -/
theorem C5_counterexample :
    oddFs (exactFile "/www"
        (resolveCode (req11 [("X-Code", "204"), ("X-Format", "application/json")]))
        (resolveExt htmlReg (req11 [("X-Code", "204"), ("X-Format", "application/json")])))
      = some [123, 125] ∧
    (errorHandler htmlReg oddFs "/www" (req11 [("X-Code", "204"), ("X-Format", "application/json")])
        (ResponseWriter.fresh "GET") Metrics.zero).toOption.map
        (fun res => (res.w.status, res.opened, res.w.body)) =
      some (some 204, ["/www/204.json"], []) ∧
    (([] : Bytes) ≠ [123, 125]) := by
  decide

/-- C5 (exact-match priority), amended: for a code from 100 to 999, when the
exact file `<root>/<code><ext>` opens, the exact name is the only name opened,
so no class file name `<root>/<c>xx<ext>` is opened, whatever the files
function says about it; for a code from 200 on the response has status `code`,
`Content-Type` equal to the resolved format unless the code is 304, and the
bytes of that file as body unless the code is 204 or 304 or the request is a
`HEAD`. -/
theorem C5_exact_match_priority (reg : String → Except String (List String))
    (fs : String → Option Bytes) (path : String) (r : Request) (m : Metrics) (content : Bytes)
    (h1 : 100 ≤ resolveCode r) (h2 : resolveCode r ≤ 999)
    (h : fs (exactFile path (resolveCode r) (resolveExt reg r)) = some content) :
    ∃ res, errorHandler reg fs path r (ResponseWriter.fresh r.Method) m = .ok res ∧
      res.opened = [exactFile path (resolveCode r) (resolveExt reg r)] ∧
      (∀ c, classFile path c (resolveExt reg r) ∉ res.opened) ∧
      (200 ≤ resolveCode r →
        res.w.status = some (resolveCode r) ∧
        (resolveCode r ≠ 304 → res.w.sentHeader.Get ContentType = resolveFormat r) ∧
        (resolveCode r ≠ 204 → resolveCode r ≠ 304 → r.Method ≠ "HEAD" →
          res.w.body = content)) := by
  obtain ⟨w1, hw1⟩ := WriteHeader_ok
    ((ResponseWriter.fresh r.Method).SetHeader ContentType (resolveFormat r)) (resolveCode r) h1 h2
  refine ⟨_, errorHandler_exact reg fs path r _ w1 m content hw1 h, rfl, ?_, ?_⟩
  · intro c hc
    simp only [List.mem_singleton] at hc
    exact exactFile_ne_classFile path (resolveCode r) c (resolveExt reg r) hc.symm
  · intro h200
    rw [WriteHeader_commit _ _ rfl h200 h2] at hw1
    have hw : w1 = ((ResponseWriter.fresh r.Method).SetHeader ContentType
        (resolveFormat r)).commit (resolveCode r) := (Except.ok.inj hw1).symm
    obtain ⟨hst, _, _, hct⟩ := fresh_commit r.Method (resolveFormat r) (resolveCode r)
    obtain ⟨ha, hb, _⟩ := Write_committed w1 (resolveCode r) content (by rw [hw]; exact hst)
    refine ⟨ha, ?_, ?_⟩
    · intro h304
      show Header.Get (w1.Write content).sentHeader ContentType = _
      rw [hb, hw]
      exact hct h304
    · intro h204 h304 hm
      show (w1.Write content).body = content
      rw [hw]
      exact served_body r.Method (resolveFormat r) (resolveCode r) content h200 h204 h304 hm

/-- With `404.html` and `4xx.html` both under `/www`, a 404/html request is
served `404.html`. -/
theorem C5_exact_match_priority_witness :
    bothFs "/www/4xx.html" = some [52, 120, 120] ∧
    ∃ res, errorHandler htmlReg bothFs "/www"
        (req11 [("X-Code", "404"), ("X-Format", "text/html")]) (ResponseWriter.fresh "GET")
        Metrics.zero = .ok res ∧
      res.opened = ["/www/404.html"] ∧
      (∀ c, classFile "/www" c ".html" ∉ res.opened) ∧
      res.w.status = some 404 ∧
      res.w.sentHeader.Get ContentType = "text/html" ∧
      res.w.body = [52, 48, 52] := by
  obtain ⟨res, hres, hop, hclass, hrest⟩ :=
    C5_exact_match_priority htmlReg bothFs "/www"
      (req11 [("X-Code", "404"), ("X-Format", "text/html")]) Metrics.zero [52, 48, 52]
      (by decide) (by decide) (by decide)
  obtain ⟨hst, hct, hbody⟩ := hrest (by decide)
  exact ⟨by decide, res, hres, hop, hclass, hst, hct (by decide),
    hbody (by decide) (by decide) (by decide)⟩

/-- C6, as stated, fails: with `3xx.json` only, `X-Code: 304` and
`X-Format: application/json` find no `/www/304.json`, open the class file
`/www/3xx.json`, whose bytes are `[91, 93]`, and the response has status 304
and no body. -/
theorem C6_counterexample :
    oddFs "/www/304.json" = none ∧
    oddFs "/www/3xx.json" = some [91, 93] ∧
    (errorHandler htmlReg oddFs "/www" (req11 [("X-Code", "304"), ("X-Format", "application/json")])
        (ResponseWriter.fresh "GET") Metrics.zero).toOption.map
        (fun res => (res.w.status, res.opened, res.w.body)) =
      some (some 304, ["/www/304.json", "/www/3xx.json"], []) ∧
    (([] : Bytes) ≠ [91, 93]) := by
  decide

/-- C6 (fallback correctness), amended: for a code from 100 to 999, when the
exact file `<root>/<code><ext>` does not open and the class file
`<root>/<d>xx<ext>` (with `d` the digit code / 100) opens, these two names are
the names opened; for a code from 200 on the response has status `code`,
`Content-Type` equal to the resolved format unless the code is 304, and the
bytes of the class file as body unless the code is 204 or 304 or the request is
a `HEAD`. -/
theorem C6_fallback_correctness (reg : String → Except String (List String))
    (fs : String → Option Bytes) (path : String) (r : Request) (m : Metrics) (content : Bytes)
    (h1 : 100 ≤ resolveCode r) (h2 : resolveCode r ≤ 999)
    (h : fs (exactFile path (resolveCode r) (resolveExt reg r)) = none)
    (hcl : fs (classFile path (digitChar ((resolveCode r).natAbs / 100)) (resolveExt reg r))
      = some content) :
    ∃ res, errorHandler reg fs path r (ResponseWriter.fresh r.Method) m = .ok res ∧
      res.opened = [exactFile path (resolveCode r) (resolveExt reg r),
        classFile path (digitChar ((resolveCode r).natAbs / 100)) (resolveExt reg r)] ∧
      (200 ≤ resolveCode r →
        res.w.status = some (resolveCode r) ∧
        (resolveCode r ≠ 304 → res.w.sentHeader.Get ContentType = resolveFormat r) ∧
        (resolveCode r ≠ 204 → resolveCode r ≠ 304 → r.Method ≠ "HEAD" →
          res.w.body = content)) := by
  obtain ⟨w1, hw1⟩ := WriteHeader_ok
    ((ResponseWriter.fresh r.Method).SetHeader ContentType (resolveFormat r)) (resolveCode r) h1 h2
  refine ⟨_, errorHandler_class reg fs path r _ w1 m _ content hw1 h (firstChar_three h1 h2) hcl,
    rfl, ?_⟩
  intro h200
  rw [WriteHeader_commit _ _ rfl h200 h2] at hw1
  have hw : w1 = ((ResponseWriter.fresh r.Method).SetHeader ContentType
      (resolveFormat r)).commit (resolveCode r) := (Except.ok.inj hw1).symm
  obtain ⟨hst, _, _, hct⟩ := fresh_commit r.Method (resolveFormat r) (resolveCode r)
  obtain ⟨ha, hb, _⟩ := Write_committed w1 (resolveCode r) content (by rw [hw]; exact hst)
  refine ⟨ha, ?_, ?_⟩
  · intro h304
    show Header.Get (w1.Write content).sentHeader ContentType = _
    rw [hb, hw]
    exact hct h304
  · intro h204 h304 hm
    show (w1.Write content).body = content
    rw [hw]
    exact served_body r.Method (resolveFormat r) (resolveCode r) content h200 h204 h304 hm

/-- With `5xx.json` only under `/www`, `X-Code: 503` and
`X-Format: application/json` give status 503 and the bytes of `5xx.json`. -/
theorem C6_fallback_correctness_witness :
    ∃ res, errorHandler htmlReg jsonFs "/www"
        (req11 [("X-Code", "503"), ("X-Format", "application/json")]) (ResponseWriter.fresh "GET")
        Metrics.zero = .ok res ∧
      res.opened = ["/www/503.json", "/www/5xx.json"] ∧
      res.w.status = some 503 ∧
      res.w.sentHeader.Get ContentType = "application/json" ∧
      res.w.body = [123, 125] := by
  obtain ⟨res, hres, hop, hrest⟩ :=
    C6_fallback_correctness htmlReg jsonFs "/www"
      (req11 [("X-Code", "503"), ("X-Format", "application/json")]) Metrics.zero [123, 125]
      (by decide) (by decide) (by decide) (by decide)
  obtain ⟨hst, hct, hbody⟩ := hrest (by decide)
  exact ⟨res, hres, hop, hst, hct (by decide), hbody (by decide) (by decide) (by decide)⟩

/-- C7: whenever a run opens a second file, the resolved code is from 100 to
999 and that file is `<root>/<d>xx<ext>` with `d` the leading decimal digit of
the resolved code, one of `0`..`9`, equal to the digit code / 100 and to the
first character of the decimal text of the code; and for every code from 100 to
999 whose exact file does not open, the run does open that class file.  The
name depends on the resolved code only, not on the text of the header. -/
theorem C7_class_fallback (reg : String → Except String (List String))
    (fs : String → Option Bytes) (path : String) (r : Request) (m : Metrics) :
    (∀ res, errorHandler reg fs path r (ResponseWriter.fresh r.Method) m = .ok res →
      (res.opened = [path ++ "/" ++ Itoa (resolveCode r) ++ resolveExt reg r] ∨
        res.opened = [path ++ "/" ++ Itoa (resolveCode r) ++ resolveExt reg r,
          path ++ "/" ++ String.singleton (digitChar (leadingDigit (resolveCode r).natAbs)) ++
            "xx" ++ resolveExt reg r]) ∧
      100 ≤ resolveCode r ∧ resolveCode r ≤ 999 ∧
      (digitChar (leadingDigit (resolveCode r).natAbs)).isDigit = true ∧
      leadingDigit (resolveCode r).natAbs = (resolveCode r).natAbs / 100 ∧
      firstChar (Itoa (resolveCode r)) = some (digitChar (leadingDigit (resolveCode r).natAbs))) ∧
    (100 ≤ resolveCode r → resolveCode r ≤ 999 →
      fs (exactFile path (resolveCode r) (resolveExt reg r)) = none →
      ∃ res, errorHandler reg fs path r (ResponseWriter.fresh r.Method) m = .ok res ∧
        res.opened = [path ++ "/" ++ Itoa (resolveCode r) ++ resolveExt reg r,
          path ++ "/" ++ String.singleton (digitChar ((resolveCode r).natAbs / 100)) ++
            "xx" ++ resolveExt reg r]) := by
  constructor
  · intro res hres
    obtain ⟨h1, h2⟩ := errorHandler_ok_range reg fs path r m res hres
    have hlead : leadingDigit (resolveCode r).natAbs = (resolveCode r).natAbs / 100 :=
      leadingDigit_three (by omega) (by omega)
    obtain ⟨res2, hres2, hop, _⟩ := errorHandler_run reg fs path r m h1 h2
    rw [hres] at hres2
    have heq : res = res2 := Except.ok.inj hres2
    subst heq
    refine ⟨?_, h1, h2, digitChar_isDigit _, hlead, ?_⟩
    · rw [hlead]
      rcases hop with hop | hop
      · exact Or.inl hop
      · exact Or.inr hop
    · rw [hlead]
      exact firstChar_three h1 h2
  · intro h1 h2 hex
    obtain ⟨w1, hw1⟩ := WriteHeader_ok
      ((ResponseWriter.fresh r.Method).SetHeader ContentType (resolveFormat r)) (resolveCode r)
      h1 h2
    have hc := firstChar_three h1 h2
    cases h2' : fs (classFile path (digitChar ((resolveCode r).natAbs / 100))
        (resolveExt reg r)) with
    | some content =>
      exact ⟨_, errorHandler_class reg fs path r _ w1 m _ content hw1 hex hc h2', rfl⟩
    | none =>
      obtain ⟨w2, hw2, _⟩ := NotFound_ok w1
      exact ⟨_, errorHandler_notFound reg fs path r _ w1 w2 m _ hw1 hex hc h2' hw2, rfl⟩

/-- The value `+503` of `X-Code` leads to the class file `/www/5xx.html`: the
digit comes from the code 503, not from the first character of the header. -/
theorem C7_class_fallback_witness :
    emptyFs (exactFile "/www" (resolveCode (req11 [("X-Code", "+503")]))
      (resolveExt htmlReg (req11 [("X-Code", "+503")]))) = none ∧
    ∃ res, errorHandler htmlReg emptyFs "/www" (req11 [("X-Code", "+503")])
        (ResponseWriter.fresh "GET") Metrics.zero = .ok res ∧
      res.opened = ["/www/503.html", "/www/5xx.html"] :=
  ⟨rfl,
   (C7_class_fallback htmlReg emptyFs "/www" (req11 [("X-Code", "+503")]) Metrics.zero).2
    (by decide) (by decide) rfl⟩

/-- C8, as stated, fails: with an empty root, `X-Code: 100` and
`X-Format: application/x-unknown`, a format the registry has no extension for,
the files looked for end in `.html`, but 100 goes out as an interim response
and the response is the 404 of `NotFound` with `Content-Type`
`text/plain; charset=utf-8`, not the format of the client. -/
theorem C8_counterexample :
    Header.Get (req11 [("X-Code", "100"), ("X-Format", "application/x-unknown")]).Header
      FormatHeader = "application/x-unknown" ∧
    htmlReg "application/x-unknown" = .ok [] ∧
    lookupExt htmlReg "application/x-unknown" = "html" ∧
    (errorHandler htmlReg emptyFs "/www"
        (req11 [("X-Code", "100"), ("X-Format", "application/x-unknown")])
        (ResponseWriter.fresh "GET") Metrics.zero).toOption.map
        (fun res => (res.w.status, res.opened, res.w.sentHeader.Get ContentType)) =
      some (some 404, ["/www/100.html", "/www/1xx.html"], "text/plain; charset=utf-8") ∧
    ("text/plain; charset=utf-8" ≠ "application/x-unknown") := by
  refine ⟨by decide, ?_, by decide, by decide, by decide⟩
  rfl

/-- C8, amended: when the `X-Format` value is not empty and the registry lookup
of it fails or finds no extension, the extension in the file names is `.html`;
for a code from 100 to 999 the files opened are `<root>/<code>.html` and, when
that does not open, `<root>/<d>xx.html`; and for a code from 200 on, 304 apart,
the `Content-Type` committed to the response is the `X-Format` value itself. -/
theorem C8_unmapped_format (reg : String → Except String (List String))
    (fs : String → Option Bytes) (path : String) (r : Request) (m : Metrics)
    (hne : r.Header.Get FormatHeader ≠ "")
    (hreg : (∃ e, reg (r.Header.Get FormatHeader) = .error e) ∨
      reg (r.Header.Get FormatHeader) = .ok []) :
    resolveExt reg r = ".html" ∧
    (100 ≤ resolveCode r → resolveCode r ≤ 999 →
      ∃ res, errorHandler reg fs path r (ResponseWriter.fresh r.Method) m = .ok res ∧
        (res.opened = [path ++ "/" ++ Itoa (resolveCode r) ++ ".html"] ∨
          ∃ c, res.opened = [path ++ "/" ++ Itoa (resolveCode r) ++ ".html",
            path ++ "/" ++ String.singleton c ++ "xx" ++ ".html"]) ∧
        (200 ≤ resolveCode r → resolveCode r ≠ 304 →
          res.w.sentHeader.Get ContentType = r.Header.Get FormatHeader)) := by
  have hf := resolveFormat_of_ne hne
  have hext : resolveExt reg r = ".html" := by
    unfold resolveExt lookupExt
    rw [hf]
    rcases hreg with ⟨e, he⟩ | he <;> rw [he] <;> rfl
  refine ⟨hext, ?_⟩
  intro h1 h2
  obtain ⟨res, hres, hop, hcommit⟩ := errorHandler_run reg fs path r m h1 h2
  refine ⟨res, hres, ?_, ?_⟩
  · rw [hext] at hop
    rcases hop with hop | hop
    · exact Or.inl hop
    · exact Or.inr ⟨_, hop⟩
  · intro h200 h304
    rw [(hcommit h200).2 h304, hf]

/-- The format `application/x-unknown` has no extension in the registry: with
`X-Code: 503` the files looked for end in `.html` and the `Content-Type` is
`application/x-unknown`. -/
theorem C8_unmapped_format_witness :
    resolveExt htmlReg (req11 [("X-Format", "application/x-unknown"), ("X-Code", "503")])
      = ".html" ∧
    ∃ res, errorHandler htmlReg classFs "/www"
        (req11 [("X-Format", "application/x-unknown"), ("X-Code", "503")])
        (ResponseWriter.fresh "GET") Metrics.zero = .ok res ∧
      (res.opened = ["/www/503.html"] ∨
        ∃ c, res.opened = ["/www/503.html",
          "/www" ++ "/" ++ String.singleton c ++ "xx" ++ ".html"]) ∧
      res.w.sentHeader.Get ContentType = "application/x-unknown" := by
  obtain ⟨hext, hrun⟩ := C8_unmapped_format htmlReg classFs "/www"
    (req11 [("X-Format", "application/x-unknown"), ("X-Code", "503")]) Metrics.zero
    (by decide) (Or.inr rfl)
  obtain ⟨res, hres, hop, hct⟩ := hrun (by decide) (by decide)
  exact ⟨hext, res, hres, hop, hct (by decide) (by decide)⟩

/-- C9: for every registry and request the extension in the file names is not
empty and begins with a dot; it is the looked-up extension itself when that
begins with a dot, and the looked-up extension with one dot in front when it
does not.  Every file name opened by a run ends with it, and for a code from
100 to 999 the run does open a file. -/
theorem C9_extension_dot (reg : String → Except String (List String))
    (fs : String → Option Bytes) (path : String) (r : Request) (m : Metrics) :
    resolveExt reg r ≠ "" ∧
    firstChar (resolveExt reg r) = some '.' ∧
    (firstChar (lookupExt reg (resolveFormat r)) = some '.' →
      resolveExt reg r = lookupExt reg (resolveFormat r)) ∧
    (firstChar (lookupExt reg (resolveFormat r)) ≠ some '.' →
      resolveExt reg r = "." ++ lookupExt reg (resolveFormat r)) ∧
    (∀ res, errorHandler reg fs path r (ResponseWriter.fresh r.Method) m = .ok res →
      ∀ p ∈ res.opened, ∃ stem, p = path ++ "/" ++ stem ++ resolveExt reg r) ∧
    (100 ≤ resolveCode r → resolveCode r ≤ 999 →
      ∃ res, errorHandler reg fs path r (ResponseWriter.fresh r.Method) m = .ok res ∧
        res.opened.head? = some (path ++ "/" ++ Itoa (resolveCode r) ++ resolveExt reg r)) := by
  have hfirst : firstChar (resolveExt reg r) = some '.' := firstChar_dotExt _
  refine ⟨?_, hfirst, dotExt_of_dot, dotExt_of_no_dot, ?_, ?_⟩
  · intro he
    rw [he] at hfirst
    exact absurd hfirst (by decide)
  · intro res hres p hp
    obtain ⟨h1, h2⟩ := errorHandler_ok_range reg fs path r m res hres
    obtain ⟨res2, hres2, hop, _⟩ := errorHandler_run reg fs path r m h1 h2
    rw [hres] at hres2
    have heq : res = res2 := Except.ok.inj hres2
    subst heq
    rcases hop with hop | hop
    · rw [hop, List.mem_singleton] at hp
      exact ⟨Itoa (resolveCode r), hp⟩
    · rw [hop] at hp
      simp only [List.mem_cons, List.mem_singleton, List.not_mem_nil, or_false] at hp
      rcases hp with hp | hp
      · exact ⟨Itoa (resolveCode r), hp⟩
      · refine ⟨String.singleton (digitChar ((resolveCode r).natAbs / 100)) ++ "xx", ?_⟩
        rw [hp]
        simp [classFile, String.append_assoc]
  · intro h1 h2
    obtain ⟨res, hres, hop, _⟩ := errorHandler_run reg fs path r m h1 h2
    refine ⟨res, hres, ?_⟩
    rcases hop with hop | hop <;> rw [hop] <;> rfl

/-- With a registry that gives `.json` for `application/json`, the extension is
`.json`, unchanged, and the file looked for first is `/www/503.json`. -/
theorem C9_extension_dot_witness :
    resolveExt htmlReg (req11 [("X-Code", "503"), ("X-Format", "application/json")]) = ".json" ∧
    ∃ res, errorHandler htmlReg jsonFs "/www"
        (req11 [("X-Code", "503"), ("X-Format", "application/json")])
        (ResponseWriter.fresh "GET") Metrics.zero = .ok res ∧
      res.opened.head? = some "/www/503.json" :=
  ⟨(C9_extension_dot htmlReg jsonFs "/www"
      (req11 [("X-Code", "503"), ("X-Format", "application/json")]) Metrics.zero).2.2.1
      (by decide),
   (C9_extension_dot htmlReg jsonFs "/www"
      (req11 [("X-Code", "503"), ("X-Format", "application/json")]) Metrics.zero).2.2.2.2.2
      (by decide) (by decide)⟩

/-- C10, on the code: `X-Code: 0` is read as the integer 0 and the handler
passes it to `WriteHeader` at line 92, which stops with the fault
`invalid WriteHeader code`; the same happens for `-5`, `99` and `1000`.  No
file name is built.  The index `scode[0]` itself is never out of range: the
decimal text of 0 and of -5 has a first character. -/
theorem C10_out_of_range_code_faults :
    resolveCode (req11 [("X-Code", "0")]) = 0 ∧
    faultOf (errorHandler htmlReg emptyFs "/www" (req11 [("X-Code", "0")])
        (ResponseWriter.fresh "GET") Metrics.zero) = some (Fault.invalidWriteHeaderCode 0) ∧
    faultOf (errorHandler htmlReg emptyFs "/www" (req11 [("X-Code", "-5")])
        (ResponseWriter.fresh "GET") Metrics.zero) = some (Fault.invalidWriteHeaderCode (-5)) ∧
    faultOf (errorHandler htmlReg emptyFs "/www" (req11 [("X-Code", "99")])
        (ResponseWriter.fresh "GET") Metrics.zero) = some (Fault.invalidWriteHeaderCode 99) ∧
    faultOf (errorHandler htmlReg emptyFs "/www" (req11 [("X-Code", "1000")])
        (ResponseWriter.fresh "GET") Metrics.zero) = some (Fault.invalidWriteHeaderCode 1000) ∧
    firstChar (Itoa 0) = some '0' ∧ firstChar (Itoa (-5)) = some '-' := by
  decide

end CustomErrorPages
